import Mathlib

/-!
Verification of the cache-action repository's Cache Transfer Engine:
the chunked byte-range transfer logic (`downloadFile`, `requestUploadCache`),
the HTTP error decoder (`readErrorIncomingMessage`, `handleErrorResponse`),
the control-plane client (`requestGetCache`, `requestReserveCache`), the
orchestrator (`restoreCache`, `saveCache`), and the archive pipeline
(`waitChildProcess`, `createArchive`, `extractArchive`).

Machine numbers are modelled as `Nat`/`Int`; JavaScript's `NaN` (which the
code can produce via `Number.parseInt` on a missing `content-length` header)
is modelled explicitly by `JsNum`.  Asynchronous functions returning or
throwing are modelled with `Except`.  The concurrent chunk fan-out
(`Promise.all`) writes to pairwise-disjoint byte ranges, so it is modelled
as a left fold in dispatch order.
-/

/-- The chunk loop shared by `downloadFile` (src/api/download.ts) and
`requestUploadCache` (src/utils/api.ts):

  for (let start = 0; start < fileSize; start += maxChunkSize) {
    const end = Math.min(start + maxChunkSize - 1, fileSize);
    ... range (start, end) ...
  }

`fuel` bounds the number of iterations so the recursion is structural; each
iteration advances `start` by `maxChunkSize`, so `fileSize` iterations always
suffice when `maxChunkSize ≥ 1` (the loop does not terminate in the source
either when `maxChunkSize = 0`). -/
def chunkRangesAux (fileSize maxChunkSize : Nat) : Nat → Nat → List (Nat × Nat)
  | start, fuel + 1 =>
    if start < fileSize then
      (start, min (start + maxChunkSize - 1) fileSize)
        :: chunkRangesAux fileSize maxChunkSize (start + maxChunkSize) fuel
    else []
  | _, 0 => []

/-- The list of `(start, end)` pairs produced by the chunk loop, in dispatch
order.  In the source each pair is used as an inclusive HTTP byte range
(`range: bytes=start-end` on download, `Content-Range: bytes start-end/*`
and `fs.createReadStream(filePath, { start, end })` on upload). -/
def chunkRanges (fileSize maxChunkSize : Nat) : List (Nat × Nat) :=
  chunkRangesAux fileSize maxChunkSize 0 fileSize

/-- Whether byte index `i` lies in one of the inclusive ranges. -/
def coversIndex (ranges : List (Nat × Nat)) (i : Nat) : Bool :=
  ranges.any fun r => r.1 ≤ i && i ≤ r.2

/-- Models `file.write(buffer, 0, buffer.length, start)` on a file handle opened for
random-access writing: bytes `[off, off + buf.length)` become `buf`, earlier
and later bytes are unchanged, and a gap beyond the current end of file reads
back as zero bytes. -/
def writeAt (file : List Nat) (off : Nat) (buf : List Nat) : List Nat :=
  file.take off ++ List.replicate (off - file.length) 0 ++ buf
    ++ file.drop (off + buf.length)

/-- The body a data-plane server returns for the inclusive range request
`bytes=s-e` against a resource holding `content`: bytes `s` through
`min e (content.length - 1)` (HTTP servers clamp the range to the resource). -/
def serverRangeBody (content : List Nat) (s e : Nat) : List Nat :=
  (content.drop s).take (e + 1 - s)

/-- The destination-file contents after `downloadFile` dispatches the chunk
loop's ranged GETs against a resource holding `content` and writes each
returned body at offset `start` into the file (opened with `"w"`, hence
initially empty).  The concurrent writes target pairwise-disjoint offsets,
so they are folded in dispatch order. -/
def downloadReassemble (content : List Nat) (maxChunkSize : Nat) : List Nat :=
  (chunkRanges content.length maxChunkSize).foldl
    (fun file r => writeAt file r.1 (serverRangeBody content r.1 r.2)) []

/-- An HTTP response as the client observes it: status code, the
`content-type` and `content-length` headers (`none` models an absent
header), and the fully buffered body. -/
structure IncomingMessage where
  statusCode : Nat
  contentType : Option String
  contentLength : Option String
  body : String

/-- Whether `needle` occurs as a contiguous substring of `hay`
(JavaScript's `String.prototype.includes`). -/
def listContainsSub (needle : List Char) : List Char → Bool
  | [] => needle.isEmpty
  | c :: t => needle.isPrefixOf (c :: t) || listContainsSub needle t

/-- Models `s.includes(sub)` on strings. -/
def jsIncludes (s sub : String) : Bool :=
  listContainsSub sub.toList s.toList

/-- Index of the first occurrence of `needle` in the list, if any. -/
def firstSubIndex (needle : List Char) : List Char → Option Nat
  | [] => if needle.isEmpty then some 0 else none
  | c :: t =>
    if needle.isPrefixOf (c :: t) then some 0
    else (firstSubIndex needle t).map (· + 1)

/-- Models `body.match(/<Message>(.*?)<\/Message>/s)`: the text captured between the
first `<Message>` and the first `</Message>` after it (the lazy quantifier
takes the shortest capture; the `s` flag lets it span newlines), or `none`
when the pattern does not match. -/
def extractXmlMessage (body : String) : Option String :=
  let cs := body.toList
  match firstSubIndex "<Message>".toList cs with
  | none => none
  | some i =>
    let rest := cs.drop (i + 9)
    match firstSubIndex "</Message>".toList rest with
    | none => none
    | some j => some (String.mk (rest.take j))

/-- Model of `readErrorIncomingMessage` from the bundled `http` module
(dist/main.bundle.mjs): decodes a non-success response body by content type.
`jsonMessage` models `JSON.parse(body)` followed by the
`typeof data === "object" && "message" in data` check: `.error` when
`JSON.parse` throws, `.ok (some m)` when the body is an object whose
`message` field prints as `m`, `.ok none` otherwise (then control falls
through to the raw-body return).  The final fallback is
`buffer.byteLength > 0 ? buffer.toString() : "unknown error"`. -/
def readErrorIncomingMessage
    (jsonMessage : String → Except String (Option String))
    (msg : IncomingMessage) : Except String String :=
  let fallback := if msg.body.isEmpty then "unknown error" else msg.body
  match msg.contentType with
  | some ct =>
    if jsIncludes ct "application/json" then
      match jsonMessage msg.body with
      | .error e => .error e
      | .ok (some m) => .ok (m ++ " (" ++ toString msg.statusCode ++ ")")
      | .ok none => .ok (fallback ++ " (" ++ toString msg.statusCode ++ ")")
    else if jsIncludes ct "application/xml" then
      match extractXmlMessage msg.body with
      | some m => .ok (m ++ " (" ++ toString msg.statusCode ++ ")")
      | none => .ok (fallback ++ " (" ++ toString msg.statusCode ++ ")")
    else .ok (fallback ++ " (" ++ toString msg.statusCode ++ ")")
  | none => .ok (fallback ++ " (" ++ toString msg.statusCode ++ ")")

/-- Model of `handleErrorResponse` from src/api/https.ts: identical branch structure,
but the final return is `new Error(buffer.toString() + " (status)")` with no
empty-body fallback. -/
def handleErrorResponse
    (jsonMessage : String → Except String (Option String))
    (msg : IncomingMessage) : Except String String :=
  match msg.contentType with
  | some ct =>
    if jsIncludes ct "application/json" then
      match jsonMessage msg.body with
      | .error e => .error e
      | .ok (some m) => .ok (m ++ " (" ++ toString msg.statusCode ++ ")")
      | .ok none => .ok (msg.body ++ " (" ++ toString msg.statusCode ++ ")")
    else if jsIncludes ct "application/xml" then
      match extractXmlMessage msg.body with
      | some m => .ok (m ++ " (" ++ toString msg.statusCode ++ ")")
      | none => .ok (msg.body ++ " (" ++ toString msg.statusCode ++ ")")
    else .ok (msg.body ++ " (" ++ toString msg.statusCode ++ ")")
  | none => .ok (msg.body ++ " (" ++ toString msg.statusCode ++ ")")

/-- A JavaScript number as produced by `Number.parseInt`: either `NaN` or an
integer value. -/
inductive JsNum where
  | nan : JsNum
  | num : Int → JsNum
deriving DecidableEq, Repr

/-- Models `Number.parseInt(header)`: an absent header (`undefined`) or a value with
no leading digit parses to `NaN`; otherwise the leading run of digits gives
the value.  (The sign, whitespace and radix handling of `parseInt` is not
exercised by any claim.) -/
def parseIntJs (header : Option String) : JsNum :=
  match header with
  | none => .nan
  | some str =>
    let digits := str.toList.takeWhile Char.isDigit
    if digits.isEmpty then .nan
    else .num (digits.foldl (fun acc c => acc * 10 + ((c.toNat : Int) - 48)) 0)

/-- Model of `getDownloadFileSize` (src/api/download.ts): a HEAD request; on status 200
it returns `Number.parseInt` of the `content-length` header (possibly `NaN`),
on anything else it throws the decoded error. -/
def getDownloadFileSize
    (jsonMessage : String → Except String (Option String))
    (res : IncomingMessage) : Except String JsNum :=
  if res.statusCode = 200 then .ok (parseIntJs res.contentLength)
  else
    match readErrorIncomingMessage jsonMessage res with
    | .ok t => .error t
    | .error e => .error e

/-- The chunk loop of `downloadFile` runs with `fileSize` as a JavaScript
number: `start < NaN` is false, so a `NaN` size produces zero iterations,
as does a non-positive size. -/
def jsLoopRanges (fileSize : JsNum) (maxChunkSize : Nat) : List (Nat × Nat) :=
  match fileSize with
  | .nan => []
  | .num n => chunkRanges n.toNat maxChunkSize

/-- Model of `downloadFile(url, savePath, opts)` (src/api/download.ts):
probes the size with `getDownloadFileSize`, opens the destination with flag
`"w"` (truncating it to an empty file), then dispatches one ranged GET per
chunk range.  `rangeStatus` gives the status each ranged GET resolves with:
a 206 response's body (`serverRangeBody` of the remote `content`) is written
at the range's start offset, anything else rejects that chunk and the whole
call.  The concurrent chunks write to pairwise-disjoint offsets, so they are
folded in dispatch order.  Returns the issued ranges and the final
destination-file contents. -/
def downloadFile (jsonMessage : String → Except String (Option String))
    (content : List Nat) (headRes : IncomingMessage)
    (rangeStatus : Nat × Nat → Nat) (maxChunkSize : Nat) :
    Except String (List (Nat × Nat) × List Nat) := do
  let fileSize ← getDownloadFileSize jsonMessage headRes
  let ranges := jsLoopRanges fileSize maxChunkSize
  let file ← ranges.foldlM (fun file r =>
    if rangeStatus r = 206 then
      pure (writeAt file r.1 (serverRangeBody content r.1 r.2))
    else
      Except.error ("range request failed ("
        ++ toString (rangeStatus r) ++ ")")) []
  return (ranges, file)

/-- Model of `requestUploadCache(id, filePath, fileSize, opts)`
(src/utils/api.ts): one ranged PATCH per chunk range; a 204 response resolves
the chunk, anything else rejects it.  Returns the issued ranges. -/
def requestUploadCache (fileSize : Nat) (rangeStatus : Nat × Nat → Nat)
    (maxChunkSize : Nat) : Except String (List (Nat × Nat)) :=
  let ranges := chunkRanges fileSize maxChunkSize
  match ranges.foldlM (fun _ r =>
      if rangeStatus r = 204 then Except.ok ()
      else
        Except.error ("upload chunk failed ("
          ++ toString (rangeStatus r) ++ ")")) () with
  | .error e => .error e
  | .ok _ => .ok ranges

/-- The control-plane cache record (the `Cache` interface of
src/utils/api.ts). -/
structure Cache where
  scope : String
  cacheKey : String
  cacheVersion : String
  creationTime : String
  archiveLocation : String

/-- Model of `requestGetCache(key, version)` (src/utils/api.ts): status 200 → the JSON
cache record (`parsed` models the result of `readJsonIncomingMessage`),
status 204 → `null` (cache not found), anything else → throws the decoded
error. -/
def requestGetCache (jsonMessage : String → Except String (Option String))
    (res : IncomingMessage) (parsed : Cache) : Except String (Option Cache) :=
  if res.statusCode = 200 then .ok (some parsed)
  else if res.statusCode = 204 then .ok none
  else
    match readErrorIncomingMessage jsonMessage res with
    | .ok t => .error t
    | .error e => .error e

/-- Model of `requestReserveCache(key, version, size)` (src/utils/api.ts): status 201
→ the JSON body's `cacheId` (`parsedCacheId` models the result of
`readJsonIncomingMessage`), status 409 → `null` (cache already reserved),
anything else → throws the decoded error. -/
def requestReserveCache (jsonMessage : String → Except String (Option String))
    (res : IncomingMessage) (parsedCacheId : Nat) :
    Except String (Option Nat) :=
  if res.statusCode = 201 then .ok (some parsedCacheId)
  else if res.statusCode = 409 then .ok none
  else
    match readErrorIncomingMessage jsonMessage res with
    | .ok t => .error t
    | .error e => .error e

/-- Outcomes of the external calls `restoreCache` can make, in program
order. -/
structure RestoreEnv where
  getCacheResult : Except String (Option Cache)
  downloadResult : Except String Unit
  extractResult : Except String Unit

/-- Filesystem-effect log of one `restoreCache` run. -/
structure RestoreTrace where
  tempDirCreated : Bool
  downloadStarted : Bool
  extractStarted : Bool
  tempDirRemoved : Bool
deriving DecidableEq, Repr

/-- Model of `restoreCache(key, version)` (src/lib.ts): look the cache up; on `null`
return `false` immediately (no temp dir, no download, no extraction);
otherwise `mkdtemp` a scratch dir, download the archive into it, extract it,
remove the scratch dir, and return `true`.  There is no try/finally: an
error from the download or the extraction propagates and skips the
removal. -/
def restoreCache (env : RestoreEnv) : Except String Bool × RestoreTrace :=
  match env.getCacheResult with
  | .error e => (.error e, ⟨false, false, false, false⟩)
  | .ok none => (.ok false, ⟨false, false, false, false⟩)
  | .ok (some _) =>
    match env.downloadResult with
    | .error e => (.error e, ⟨true, true, false, false⟩)
    | .ok _ =>
      match env.extractResult with
      | .error e => (.error e, ⟨true, true, true, false⟩)
      | .ok _ => (.ok true, ⟨true, true, true, true⟩)

/-- Outcomes of the external calls `saveCache` can make, in program order. -/
structure SaveEnv where
  compressResult : Except String Unit
  statResult : Except String Nat
  reserveResult : Except String (Option Nat)
  uploadResult : Except String Unit
  commitResult : Except String Unit

/-- Filesystem- and network-effect log of one `saveCache` run. -/
structure SaveTrace where
  tempDirCreated : Bool
  compressStarted : Bool
  reserveStarted : Bool
  uploadStarted : Bool
  commitStarted : Bool
  tempDirRemoved : Bool
deriving DecidableEq, Repr

/-- Model of `saveCache(key, version, filePaths)` (src/lib.ts): `mkdtemp` a scratch
dir, compress into it, stat the archive, reserve; a `null` reservation
(conflict) removes the scratch dir and returns `false` without uploading or
committing; otherwise upload, commit, remove the scratch dir, and return
`true`.  Errors propagate and skip the removal. -/
def saveCache (env : SaveEnv) : Except String Bool × SaveTrace :=
  match env.compressResult with
  | .error e => (.error e, ⟨true, true, false, false, false, false⟩)
  | .ok _ =>
    match env.statResult with
    | .error e => (.error e, ⟨true, true, false, false, false, false⟩)
    | .ok _ =>
      match env.reserveResult with
      | .error e => (.error e, ⟨true, true, true, false, false, false⟩)
      | .ok none => (.ok false, ⟨true, true, true, false, false, true⟩)
      | .ok (some _) =>
        match env.uploadResult with
        | .error e => (.error e, ⟨true, true, true, true, false, false⟩)
        | .ok _ =>
          match env.commitResult with
          | .error e => (.error e, ⟨true, true, true, true, true, false⟩)
          | .ok _ => (.ok true, ⟨true, true, true, true, true, true⟩)

/-- The exit of a spawned child process: the `close` code and the
concatenation of the captured `stderr` chunks. -/
structure ProcExit where
  code : Int
  stderr : String

/-- Model of `waitChildProcess(proc)` (src/utils/archive.ts): resolves on exit code 0,
otherwise rejects with the message
`["Process failed: " + spawnargs.join(" "), stderrText].join("\n")`.
`spawnargs` is the invoked command followed by its arguments. -/
def waitChildProcess (spawnargs : List String) (p : ProcExit) :
    Except String Unit :=
  if p.code = 0 then .ok ()
  else
    .error (String.intercalate "\n"
      ["Process failed: " ++ String.intercalate " " spawnargs, p.stderr])

/-- A filesystem mapping paths to file contents (byte lists); `none` means
the path does not exist. -/
def FileSystem := String → Option (List Nat)

/-- Writing one file. -/
def setFile (fs : FileSystem) (p : String) (data : List Nat) : FileSystem :=
  fun q => if q = p then some data else fs q

/-- The externally-defined `tar` archiver the repository spawns (but does not
implement): `pack fs paths` is the byte stream `tar -cf - -P <paths>` writes
to stdout when run over filesystem `fs` (directories are included
recursively); `unpack fs s` is the filesystem after `tar -xf - -P` reads `s`
from stdin over filesystem `fs`. -/
structure Archiver where
  pack : FileSystem → List String → List Nat
  unpack : FileSystem → List Nat → FileSystem

/-- The externally-defined `zstd` compressor: `comp` is the file
`zstd -T0 -o archivePath` produces from its stdin; `decomp` is what
`zstd -d -T0 -c archivePath` writes to stdout from that file. -/
structure Codec where
  comp : List Nat → List Nat
  decomp : List Nat → List Nat

/-- Model of `createArchive(archivePath, filePaths)` (src/utils/archive.ts): pipes
`tar -cf - -P ...filePaths` into `zstd -T0 -o archivePath`, writing the
compressed pack stream to `archivePath`. -/
def createArchive (tar : Archiver) (zstd : Codec) (fs : FileSystem)
    (archivePath : String) (filePaths : List String) : FileSystem :=
  setFile fs archivePath (zstd.comp (tar.pack fs filePaths))

/-- Model of `extractArchive(archivePath)` (src/utils/archive.ts): pipes
`zstd -d -T0 -c archivePath` into `tar -xf - -P`, unpacking the decompressed
contents of `archivePath` onto the filesystem.  (On a missing archive `zstd`
would fail; that branch is never reached after `createArchive`.) -/
def extractArchive (tar : Archiver) (zstd : Codec) (fs : FileSystem)
    (archivePath : String) : FileSystem :=
  match fs archivePath with
  | none => fs
  | some data => tar.unpack fs (zstd.decomp data)

/-- A two-file filesystem: `a` holds bytes `[10, 20]`, `b/c` holds `[30]`
(the spec example's `a` = "a content", `b/c` = "x", with directory `b`). -/
def toyFs : FileSystem :=
  fun p => if p = "a" then some [10, 20]
    else if p = "b/c" then some [30] else none

/-- A concrete archiver honouring the `tar` contract on `toyFs` with paths
`["a", "b"]` (the directory `b` containing `b/c`). -/
def toyTar : Archiver where
  pack := fun fs _ => ((fs "a").getD []) ++ [255] ++ ((fs "b/c").getD [])
  unpack := fun _ s =>
    fun p => if p = "a" then some (s.take 2)
      else if p = "b/c" then some ((s.drop 3).take 1) else none

/-- A concrete codec honouring the `zstd` contract. -/
def toyCodec : Codec where
  comp := fun s => s
  decomp := fun s => s

theorem chunkRangesAux_zero_fuel (fileSize maxChunkSize start : Nat) :
    chunkRangesAux fileSize maxChunkSize start 0 = [] := rfl

theorem chunkRangesAux_stop (fileSize maxChunkSize start fuel : Nat)
    (h : fileSize ≤ start) :
    chunkRangesAux fileSize maxChunkSize start fuel = [] := by
  cases fuel with
  | zero => rfl
  | succ n => simp [chunkRangesAux, Nat.not_lt_of_le h]

/-- Every range produced from loop counter `start` onwards starts no earlier
than `start`, starts before `fileSize`, and its `end` is
`min (start + maxChunkSize - 1) fileSize`. -/
theorem chunkRangesAux_mem (fileSize maxChunkSize : Nat) :
    ∀ fuel start r, r ∈ chunkRangesAux fileSize maxChunkSize start fuel →
      start ≤ r.1 ∧ r.1 < fileSize ∧
        r.2 = min (r.1 + maxChunkSize - 1) fileSize := by
  intro fuel
  induction fuel with
  | zero => intro start r h; simp [chunkRangesAux] at h
  | succ n ih =>
    intro start r h
    by_cases hs : start < fileSize
    · simp only [chunkRangesAux, if_pos hs, List.mem_cons] at h
      rcases h with h | h
      · subst h; exact ⟨Nat.le_refl _, hs, rfl⟩
      · obtain ⟨h1, h2, h3⟩ := ih (start + maxChunkSize) r h
        exact ⟨Nat.le_trans (Nat.le_add_right _ _) h1, h2, h3⟩
    · simp [chunkRangesAux, hs] at h

/-- When the loop has enough fuel and `start < fileSize`, it emits at least
its first range. -/
theorem chunkRangesAux_head (fileSize maxChunkSize start fuel : Nat)
    (hs : start < fileSize) :
    chunkRangesAux fileSize maxChunkSize start (fuel + 1) =
      (start, min (start + maxChunkSize - 1) fileSize)
        :: chunkRangesAux fileSize maxChunkSize (start + maxChunkSize) fuel := by
  simp [chunkRangesAux, hs]

/-- The ranges are emitted with strictly increasing, pairwise-disjoint
inclusive windows: every later range starts after the current one ends. -/
theorem chunkRangesAux_pairwise (fileSize maxChunkSize : Nat)
    (hc : 0 < maxChunkSize) :
    ∀ fuel start,
      (chunkRangesAux fileSize maxChunkSize start fuel).Pairwise
        (fun a b => a.2 < b.1) := by
  intro fuel
  induction fuel with
  | zero => intro start; simp [chunkRangesAux]
  | succ n ih =>
    intro start
    by_cases hs : start < fileSize
    · rw [chunkRangesAux_head fileSize maxChunkSize start n hs]
      refine List.pairwise_cons.mpr ⟨?_, ih (start + maxChunkSize)⟩
      intro r hr
      obtain ⟨h1, _, _⟩ := chunkRangesAux_mem fileSize maxChunkSize n _ r hr
      have : min (start + maxChunkSize - 1) fileSize ≤ start + maxChunkSize - 1 :=
        Nat.min_le_left _ _
      omega
    · rw [chunkRangesAux_stop _ _ _ _ (Nat.le_of_not_lt hs)]
      exact List.Pairwise.nil

/-- Contiguity: with enough fuel, each range after the first starts exactly
one byte past the previous range's inclusive end. -/
theorem chunkRangesAux_chain (fileSize maxChunkSize : Nat)
    (hc : 0 < maxChunkSize) :
    ∀ fuel start, fileSize ≤ start + fuel →
      (chunkRangesAux fileSize maxChunkSize start fuel).Chain'
        (fun a b => b.1 = a.2 + 1) := by
  intro fuel
  induction fuel with
  | zero =>
    intro start hf
    rw [chunkRangesAux_stop _ _ _ _ (by omega)]
    exact List.chain'_nil
  | succ n ih =>
    intro start hf
    by_cases hs : start < fileSize
    · rw [chunkRangesAux_head fileSize maxChunkSize start n hs]
      refine List.chain'_cons'.mpr ⟨?_, ih (start + maxChunkSize) (by omega)⟩
      intro r hr
      by_cases hnext : start + maxChunkSize < fileSize
      · cases n with
        | zero => omega
        | succ m =>
          rw [chunkRangesAux_head fileSize maxChunkSize _ m hnext] at hr
          simp only [List.head?_cons, Option.mem_def, Option.some.injEq] at hr
          subst hr
          simp only
          omega
      · rw [chunkRangesAux_stop _ _ _ _ (Nat.le_of_not_lt hnext)] at hr
        simp at hr
    · rw [chunkRangesAux_stop _ _ _ _ (Nat.le_of_not_lt hs)]
      exact List.chain'_nil

/-- Coverage: with enough fuel, every byte index in `[start, fileSize)` lies
in one of the emitted inclusive ranges. -/
theorem chunkRangesAux_covers (fileSize maxChunkSize : Nat)
    (hc : 0 < maxChunkSize) :
    ∀ fuel start i, fileSize ≤ start + fuel → start ≤ i → i < fileSize →
      ∃ r ∈ chunkRangesAux fileSize maxChunkSize start fuel,
        r.1 ≤ i ∧ i ≤ r.2 := by
  intro fuel
  induction fuel with
  | zero => intro start i hf hsi hif; omega
  | succ n ih =>
    intro start i hf hsi hif
    have hs : start < fileSize := Nat.lt_of_le_of_lt hsi hif
    rw [chunkRangesAux_head fileSize maxChunkSize start n hs]
    by_cases hlo : i < start + maxChunkSize
    · exact ⟨(start, min (start + maxChunkSize - 1) fileSize),
        List.mem_cons_self _ _, hsi, by omega⟩
    · obtain ⟨r, hr, h1, h2⟩ :=
        ih (start + maxChunkSize) i (by omega) (by omega) hif
      exact ⟨r, List.mem_cons_of_mem _ hr, h1, h2⟩

/-- Writing at the current end of the file is an append. -/
theorem writeAt_length (file : List Nat) (buf : List Nat) :
    writeAt file file.length buf = file ++ buf := by
  unfold writeAt
  rw [List.take_length, Nat.sub_self, List.replicate_zero,
    List.drop_eq_nil_of_le (by omega)]
  simp

/-- Folding the download writes over the loop's ranges, starting from the
already-written prefix `content.take start`, reconstructs `content`. -/
theorem downloadReassembleAux (content : List Nat) (maxChunkSize : Nat)
    (hc : 0 < maxChunkSize) :
    ∀ fuel start, content.length ≤ start + fuel →
      (chunkRangesAux content.length maxChunkSize start fuel).foldl
        (fun file r => writeAt file r.1 (serverRangeBody content r.1 r.2))
        (content.take start) = content := by
  intro fuel
  induction fuel with
  | zero =>
    intro start hf
    rw [chunkRangesAux_stop _ _ _ _ (by omega)]
    exact List.take_of_length_le (by omega)
  | succ n ih =>
    intro start hf
    by_cases hs : start < content.length
    · rw [chunkRangesAux_head _ _ start n hs, List.foldl_cons]
      have hlen : (content.take start).length = start := by
        rw [List.length_take]; omega
      have hw := writeAt_length (content.take start)
        (serverRangeBody content start
          (min (start + maxChunkSize - 1) content.length))
      rw [hlen] at hw
      have hconcat : content.take start ++ serverRangeBody content start
          (min (start + maxChunkSize - 1) content.length) =
          content.take (start + maxChunkSize) := by
        unfold serverRangeBody
        rw [← List.take_add]
        by_cases hfit : start + maxChunkSize ≤ content.length
        · have he : start + (min (start + maxChunkSize - 1) content.length
              + 1 - start) = start + maxChunkSize := by omega
          rw [he]
        · have h1 : content.take
              (start + (min (start + maxChunkSize - 1) content.length
                + 1 - start)) = content :=
            List.take_of_length_le (by omega)
          have h2 : content.take (start + maxChunkSize) = content :=
            List.take_of_length_le (by omega)
          rw [h1, h2]
      simp only at hw ⊢
      rw [hw, hconcat]
      exact ih (start + maxChunkSize) (by omega)
    · rw [chunkRangesAux_stop _ _ _ _ (Nat.le_of_not_lt hs)]
      exact List.take_of_length_le (by omega)

/-- Issuing the chunk loop's ranged GETs against a resource holding `content`
and writing each returned body at its range's start offset reproduces
`content` exactly in the destination file. -/
theorem downloadReassemble_eq (content : List Nat) (maxChunkSize : Nat)
    (hc : 0 < maxChunkSize) :
    downloadReassemble content maxChunkSize = content := by
  unfold downloadReassemble chunkRanges
  have := downloadReassembleAux content maxChunkSize hc content.length 0
    (by omega)
  simpa using this

/-- C1 counterexample: for `totalSize = 20`, `chunkSize = 8` the chunk loop's
last range is `(16, 20)`, whose inclusive window contains byte index `20`,
which lies outside the half-open interval `[0, 20)`.  So the ranges do not
partition `[0, totalSize)` exactly: one byte index outside the interval is
covered. -/
theorem chunk_loop_partition_counterexample :
    coversIndex (chunkRanges 20 8) 20 = true ∧ ¬ (20 < 20) := by
  constructor
  · decide
  · decide

/-- C1 (amended): for `totalSize > 0` and `chunkSize > 0` the chunk loop's
ranges are contiguous (each starts one past the previous inclusive end,
the first starting at 0), pairwise non-overlapping, each spans at most
`chunkSize` bytes, and every index of `[0, totalSize)` is covered with no
gaps; however the covered set is only contained in `[0, totalSize]`: the
final range's inclusive end may be `totalSize` itself (one past the last
byte index) rather than `totalSize - 1`.  For `totalSize = 0` the range
list is empty. -/
theorem chunk_loop_range_coverage (total chunk : Nat) (hc : 0 < chunk) :
    (total = 0 → chunkRanges total chunk = []) ∧
    (chunkRanges total chunk).Chain' (fun a b => b.1 = a.2 + 1) ∧
    (chunkRanges total chunk).Pairwise (fun a b => a.2 < b.1) ∧
    (∀ r ∈ chunkRanges total chunk,
        r.1 ≤ r.2 ∧ r.2 + 1 - r.1 ≤ chunk ∧ r.2 ≤ total) ∧
    (∀ i, i < total → coversIndex (chunkRanges total chunk) i = true) ∧
    (∀ i, coversIndex (chunkRanges total chunk) i = true → i ≤ total) ∧
    (0 < total →
      (chunkRanges total chunk).head? = some (0, min (chunk - 1) total)) := by
  refine ⟨?_, ?_, ?_, ?_, ?_, ?_, ?_⟩
  · intro h; subst h; rfl
  · exact chunkRangesAux_chain total chunk hc total 0 (by omega)
  · exact chunkRangesAux_pairwise total chunk hc total 0
  · intro r hr
    obtain ⟨_, h2, h3⟩ := chunkRangesAux_mem total chunk total 0 r hr
    omega
  · intro i hi
    obtain ⟨r, hr, h1, h2⟩ :=
      chunkRangesAux_covers total chunk hc total 0 i (by omega) (by omega) hi
    simp only [coversIndex, List.any_eq_true]
    exact ⟨r, hr, by simpa using And.intro h1 h2⟩
  · intro i hi
    simp only [coversIndex, List.any_eq_true] at hi
    obtain ⟨r, hr, hri⟩ := hi
    obtain ⟨_, h2, h3⟩ := chunkRangesAux_mem total chunk total 0 r hr
    simp only [Bool.and_eq_true, decide_eq_true_eq] at hri
    omega
  · intro ht
    obtain ⟨m, rfl⟩ : ∃ m, total = m + 1 := ⟨total - 1, by omega⟩
    rw [chunkRanges, chunkRangesAux_head _ _ 0 m (by omega)]
    simp

/-- Witness for `chunk_loop_range_coverage` at `totalSize = 20`,
`chunkSize = 8`. -/
theorem chunk_loop_range_coverage_witness :
    0 < 8 ∧
      (∀ r ∈ chunkRanges 20 8, r.1 ≤ r.2 ∧ r.2 + 1 - r.1 ≤ 8 ∧ r.2 ≤ 20) ∧
      coversIndex (chunkRanges 20 8) 19 = true :=
  ⟨by decide, (chunk_loop_range_coverage 20 8 (by decide)).2.2.2.1,
    (chunk_loop_range_coverage 20 8 (by decide)).2.2.2.2.1 19 (by decide)⟩

/-- C2: every range produced by the chunk loops of `downloadFile` and
`requestUploadCache` has `end = min (start + chunkSize - 1) totalSize`;
downloading a 20-byte file with `chunkSize = 8` issues exactly the three
ranged fetches `(0, 7)`, `(8, 15)`, `(16, 20)`; and writing each returned
chunk at offset `start` reassembles the original content exactly. -/
theorem chunk_end_formula_and_reassembly :
    (∀ total chunk : Nat, ∀ r ∈ chunkRanges total chunk,
        r.2 = min (r.1 + chunk - 1) total) ∧
    chunkRanges 20 8 = [(0, 7), (8, 15), (16, 20)] ∧
    (∀ content : List Nat, content.length = 20 →
        downloadReassemble content 8 = content) := by
  refine ⟨?_, by decide, ?_⟩
  · intro total chunk r hr
    exact (chunkRangesAux_mem total chunk total 0 r hr).2.2
  · intro content _
    exact downloadReassemble_eq content 8 (by decide)

/-- Witness for `chunk_end_formula_and_reassembly` at the final range
`(16, 20)` and a concrete 20-byte content. -/
theorem chunk_end_formula_and_reassembly_witness :
    (16, 20) ∈ chunkRanges 20 8 ∧
      (16, 20).2 = min ((16, 20).1 + 8 - 1) 20 ∧
      (List.replicate 20 3).length = 20 ∧
      downloadReassemble (List.replicate 20 3) 8 = List.replicate 20 3 :=
  ⟨by decide, chunk_end_formula_and_reassembly.1 20 8 (16, 20) (by decide),
    by decide,
    chunk_end_formula_and_reassembly.2.2 (List.replicate 20 3) (by decide)⟩

/-- C5: when the size driving a chunked transfer is 0, the chunk loop
produces zero ranges, and both `downloadFile` (after its size probe) and
`requestUploadCache` resolve successfully without issuing any ranged
request, whatever the data-plane would have answered. -/
theorem zero_size_transfer_no_requests :
    (∀ jsonMessage content headRes rangeStatus maxChunkSize,
        headRes.statusCode = 200 →
        parseIntJs headRes.contentLength = JsNum.num 0 →
        downloadFile jsonMessage content headRes rangeStatus maxChunkSize =
          .ok ([], [])) ∧
    (∀ rangeStatus maxChunkSize,
        requestUploadCache 0 rangeStatus maxChunkSize = .ok []) ∧
    (∀ maxChunkSize, chunkRanges 0 maxChunkSize = []) := by
  refine ⟨?_, ?_, ?_⟩
  · intro jsonMessage content headRes rangeStatus maxChunkSize h200 hparse
    simp only [downloadFile, getDownloadFileSize, h200, if_pos, hparse,
      jsLoopRanges]
    rfl
  · intro rangeStatus maxChunkSize
    rfl
  · intro maxChunkSize
    rfl

/-- Witness for `zero_size_transfer_no_requests`: a 200 HEAD response whose
`content-length` header is `"0"`. -/
theorem zero_size_transfer_no_requests_witness :
    (IncomingMessage.mk 200 none (some "0") "").statusCode = 200 ∧
      parseIntJs (IncomingMessage.mk 200 none (some "0") "").contentLength =
        JsNum.num 0 ∧
      downloadFile (fun _ => .ok none) [3, 1, 4]
        (IncomingMessage.mk 200 none (some "0") "") (fun _ => 206) 8 =
        .ok ([], []) ∧
      requestUploadCache 0 (fun _ => 204) 8 = .ok [] :=
  ⟨rfl, by decide,
    zero_size_transfer_no_requests.1 (fun _ => .ok none) [3, 1, 4]
      (IncomingMessage.mk 200 none (some "0") "") (fun _ => 206) 8 rfl
      (by decide),
    zero_size_transfer_no_requests.2.1 (fun _ => 204) 8⟩

/-- C9: when the HEAD probe answers 200 but its `content-length` header is
absent or not parsable as a number, `getDownloadFileSize` returns `NaN`
instead of failing, and `downloadFile` then dispatches zero ranged requests
and resolves successfully with the destination file truncated to empty — no
error is raised for a missing or malformed `content-length`. -/
theorem nan_content_length_empty_download :
    parseIntJs none = JsNum.nan ∧
    (∀ s : String, (s.toList.takeWhile Char.isDigit).isEmpty →
        parseIntJs (some s) = JsNum.nan) ∧
    (∀ jsonMessage headRes, headRes.statusCode = 200 →
        getDownloadFileSize jsonMessage headRes =
          .ok (parseIntJs headRes.contentLength)) ∧
    (∀ jsonMessage content headRes rangeStatus maxChunkSize,
        headRes.statusCode = 200 →
        parseIntJs headRes.contentLength = JsNum.nan →
        downloadFile jsonMessage content headRes rangeStatus maxChunkSize =
          .ok ([], [])) := by
  refine ⟨rfl, ?_, ?_, ?_⟩
  · intro s hs
    simp only [parseIntJs]
    rw [if_pos hs]
  · intro jsonMessage headRes h200
    simp [getDownloadFileSize, h200]
  · intro jsonMessage content headRes rangeStatus maxChunkSize h200 hparse
    simp only [downloadFile, getDownloadFileSize, h200, if_pos, hparse,
      jsLoopRanges]
    rfl

/-- Witness for `nan_content_length_empty_download`: an absent header and the
unparsable header value `"abc"`. -/
theorem nan_content_length_empty_download_witness :
    (("abc" : String).toList.takeWhile Char.isDigit).isEmpty = true ∧
      parseIntJs (some "abc") = JsNum.nan ∧
      downloadFile (fun _ => .ok none) [3, 1, 4]
        (IncomingMessage.mk 200 none none "") (fun _ => 206) 8 =
        .ok ([], []) :=
  ⟨by decide, nan_content_length_empty_download.2.1 "abc" (by decide),
    nan_content_length_empty_download.2.2.2 (fun _ => .ok none) [3, 1, 4]
      (IncomingMessage.mk 200 none none "") (fun _ => 206) 8 rfl rfl⟩

/-- C3 counterexample: `handleErrorResponse` (src/api/https.ts) has no
empty-body fallback — a status-500 response with no content type and an
empty body decodes to the text `" (500)"` (the raw empty body followed by
the status), not to `"unknown error (500)"` as the claim states for the
error decoder. -/
theorem error_decoder_empty_body_counterexample :
    handleErrorResponse (fun _ => .ok none)
        (IncomingMessage.mk 500 none none "") = .ok " (500)" ∧
      (" (500)" : String) ≠ "unknown error (500)" := by
  exact ⟨rfl, by decide⟩

/-- C3 (amended): both decoders format a JSON `message` field as
`"<message> (<status>)"`, an XML `<Message>` capture as
`"<captured> (<status>)"`, and otherwise use the raw body text; for an empty
body, `readErrorIncomingMessage` (the bundled decoder) yields
`"unknown error (<status>)"`, while `handleErrorResponse` (the older decoder
in src/api/https.ts) uses the raw empty body and yields `" (<status>)"`. -/
theorem error_decoder_behaviour :
    (∀ jm msg ct m, msg.contentType = some ct →
        jsIncludes ct "application/json" = true →
        jm msg.body = .ok (some m) →
        readErrorIncomingMessage jm msg =
            .ok (m ++ " (" ++ toString msg.statusCode ++ ")") ∧
          handleErrorResponse jm msg =
            .ok (m ++ " (" ++ toString msg.statusCode ++ ")")) ∧
    (∀ jm msg ct m, msg.contentType = some ct →
        jsIncludes ct "application/json" = false →
        jsIncludes ct "application/xml" = true →
        extractXmlMessage msg.body = some m →
        readErrorIncomingMessage jm msg =
            .ok (m ++ " (" ++ toString msg.statusCode ++ ")") ∧
          handleErrorResponse jm msg =
            .ok (m ++ " (" ++ toString msg.statusCode ++ ")")) ∧
    (∀ jm msg ct, msg.contentType = some ct →
        jsIncludes ct "application/json" = false →
        jsIncludes ct "application/xml" = false →
        msg.body.isEmpty = false →
        readErrorIncomingMessage jm msg =
            .ok (msg.body ++ " (" ++ toString msg.statusCode ++ ")") ∧
          handleErrorResponse jm msg =
            .ok (msg.body ++ " (" ++ toString msg.statusCode ++ ")")) ∧
    (∀ jm msg, msg.contentType = none → msg.body.isEmpty = false →
        readErrorIncomingMessage jm msg =
            .ok (msg.body ++ " (" ++ toString msg.statusCode ++ ")") ∧
          handleErrorResponse jm msg =
            .ok (msg.body ++ " (" ++ toString msg.statusCode ++ ")")) ∧
    (∀ jm msg, msg.contentType = none → msg.body.isEmpty = true →
        readErrorIncomingMessage jm msg =
            .ok ("unknown error (" ++ toString msg.statusCode ++ ")") ∧
          handleErrorResponse jm msg =
            .ok (msg.body ++ " (" ++ toString msg.statusCode ++ ")")) := by
  refine ⟨?_, ?_, ?_, ?_, ?_⟩
  · intro jm msg ct m hct hjson hjm
    constructor
    · simp [readErrorIncomingMessage, hct, hjson, hjm]
    · simp [handleErrorResponse, hct, hjson, hjm]
  · intro jm msg ct m hct hjson hxml hex
    constructor
    · simp [readErrorIncomingMessage, hct, hjson, hxml, hex]
    · simp [handleErrorResponse, hct, hjson, hxml, hex]
  · intro jm msg ct hct hjson hxml hbody
    constructor
    · simp [readErrorIncomingMessage, hct, hjson, hxml, hbody]
    · simp [handleErrorResponse, hct, hjson, hxml]
  · intro jm msg hct hbody
    constructor
    · simp [readErrorIncomingMessage, hct, hbody]
    · simp [handleErrorResponse, hct]
  · intro jm msg hct hbody
    constructor
    · simp [readErrorIncomingMessage, hct, hbody]
    · simp [handleErrorResponse, hct]

/-- Witness for `error_decoder_behaviour`: the spec's three worked examples,
plus a raw-body response. -/
theorem error_decoder_behaviour_witness :
    readErrorIncomingMessage (fun _ => .ok (some "x"))
        (IncomingMessage.mk 500 (some "application/json") none
          "\x7b\"message\":\"x\"\x7d") =
      .ok ("x" ++ " (" ++ toString (500 : Nat) ++ ")") ∧
    readErrorIncomingMessage (fun _ => .ok none)
        (IncomingMessage.mk 500 (some "application/xml") none
          "<Message>y</Message>") =
      .ok ("y" ++ " (" ++ toString (500 : Nat) ++ ")") ∧
    readErrorIncomingMessage (fun _ => .ok none)
        (IncomingMessage.mk 500 none none "") =
      .ok ("unknown error (" ++ toString (500 : Nat) ++ ")") ∧
    handleErrorResponse (fun _ => .ok none)
        (IncomingMessage.mk 500 none none "oops") =
      .ok ("oops" ++ " (" ++ toString (500 : Nat) ++ ")") :=
  ⟨(error_decoder_behaviour.1 (fun _ => .ok (some "x"))
      (IncomingMessage.mk 500 (some "application/json") none
        "\x7b\"message\":\"x\"\x7d") "application/json" "x" rfl (by decide) rfl).1,
    (error_decoder_behaviour.2.1 (fun _ => .ok none)
      (IncomingMessage.mk 500 (some "application/xml") none
        "<Message>y</Message>") "application/xml" "y" rfl (by decide)
      (by decide) (by decide)).1,
    (error_decoder_behaviour.2.2.2.2 (fun _ => .ok none)
      (IncomingMessage.mk 500 none none "") rfl (by decide)).1,
    (error_decoder_behaviour.2.2.2.1 (fun _ => .ok none)
      (IncomingMessage.mk 500 none none "oops") rfl (by decide)).2⟩

/-- C4: a 409 reserve response makes `requestReserveCache` return `null`
instead of throwing; `saveCache` then returns `false` without invoking the
upload or the commit; any reserve status other than 201 and 409 makes
`requestReserveCache` throw the decoded error. -/
theorem reserve_conflict_short_circuit :
    (∀ jm res parsedCacheId, res.statusCode = 409 →
        requestReserveCache jm res parsedCacheId = .ok none) ∧
    (∀ jm res parsedCacheId, res.statusCode ≠ 201 → res.statusCode ≠ 409 →
        ∃ e, requestReserveCache jm res parsedCacheId = .error e) ∧
    (∀ env : SaveEnv, ∀ n, env.compressResult = .ok () →
        env.statResult = .ok n → env.reserveResult = .ok none →
        (saveCache env).1 = .ok false ∧
          (saveCache env).2.uploadStarted = false ∧
          (saveCache env).2.commitStarted = false ∧
          (saveCache env).2.tempDirRemoved = true) := by
  refine ⟨?_, ?_, ?_⟩
  · intro jm res parsedCacheId h409
    simp [requestReserveCache, h409]
  · intro jm res parsedCacheId h201 h409
    cases h : readErrorIncomingMessage jm res with
    | ok t => exact ⟨t, by simp [requestReserveCache, h201, h409, h]⟩
    | error e => exact ⟨e, by simp [requestReserveCache, h201, h409, h]⟩
  · intro env n hcompress hstat hreserve
    simp [saveCache, hcompress, hstat, hreserve]

/-- Witness for `reserve_conflict_short_circuit`: a concrete 409 response, a
concrete 500 response, and a concrete conflicted save run. -/
theorem reserve_conflict_short_circuit_witness :
    requestReserveCache (fun _ => .ok none)
        (IncomingMessage.mk 409 none none "") 7 = .ok none ∧
      (∃ e, requestReserveCache (fun _ => .ok none)
        (IncomingMessage.mk 500 none none "") 7 = .error e) ∧
      (saveCache (SaveEnv.mk (.ok ()) (.ok 42) (.ok none) (.ok ())
          (.ok ()))).1 = .ok false ∧
      (saveCache (SaveEnv.mk (.ok ()) (.ok 42) (.ok none) (.ok ())
          (.ok ()))).2.uploadStarted = false :=
  ⟨reserve_conflict_short_circuit.1 (fun _ => .ok none)
      (IncomingMessage.mk 409 none none "") 7 rfl,
    reserve_conflict_short_circuit.2.1 (fun _ => .ok none)
      (IncomingMessage.mk 500 none none "") 7 (by decide) (by decide),
    (reserve_conflict_short_circuit.2.2
      (SaveEnv.mk (.ok ()) (.ok 42) (.ok none) (.ok ()) (.ok ())) 42
      rfl rfl rfl).1,
    (reserve_conflict_short_circuit.2.2
      (SaveEnv.mk (.ok ()) (.ok 42) (.ok none) (.ok ()) (.ok ())) 42
      rfl rfl rfl).2.1⟩

/-- C7: a 204 lookup response makes `requestGetCache` return `null`, and
`restoreCache` then returns `false` with no filesystem effect: no temp
directory is created, no download is started, no extraction runs. -/
theorem restore_not_found_no_effect :
    (∀ jm res parsed, res.statusCode = 204 →
        requestGetCache jm res parsed = .ok none) ∧
    (∀ env : RestoreEnv, env.getCacheResult = .ok none →
        restoreCache env =
          (.ok false, RestoreTrace.mk false false false false)) := by
  constructor
  · intro jm res parsed h204
    have h200 : res.statusCode ≠ 200 := by omega
    simp [requestGetCache, h200, h204]
  · intro env h
    simp [restoreCache, h]

/-- Witness for `restore_not_found_no_effect`: a concrete 204 response and a
concrete not-found restore run. -/
theorem restore_not_found_no_effect_witness :
    requestGetCache (fun _ => .ok none) (IncomingMessage.mk 204 none none "")
        (Cache.mk "s" "k" "v" "t" "url") = .ok none ∧
      restoreCache (RestoreEnv.mk (.ok none) (.ok ()) (.ok ())) =
        (.ok false, RestoreTrace.mk false false false false) :=
  ⟨restore_not_found_no_effect.1 (fun _ => .ok none)
      (IncomingMessage.mk 204 none none "")
      (Cache.mk "s" "k" "v" "t" "url") rfl,
    restore_not_found_no_effect.2
      (RestoreEnv.mk (.ok none) (.ok ()) (.ok ())) rfl⟩

/-- C10: the scratch directory is removed only on runs that return
successfully (restore success; save success or conflict); when the download
or the extraction throws inside `restoreCache`, or the upload or the commit
throws inside `saveCache`, the error propagates and the scratch directory
(with the downloaded or compressed archive) is left on disk. -/
theorem scratch_dir_cleanup_paths :
    (∀ env : RestoreEnv, (restoreCache env).2.tempDirRemoved = true →
        (restoreCache env).1 = .ok true) ∧
    (∀ env : SaveEnv, (saveCache env).2.tempDirRemoved = true →
        (saveCache env).1 = .ok false ∨ (saveCache env).1 = .ok true) ∧
    (∀ env : RestoreEnv, ∀ c e, env.getCacheResult = .ok (some c) →
        env.downloadResult = .error e →
        restoreCache env = (.error e, RestoreTrace.mk true true false false)) ∧
    (∀ env : RestoreEnv, ∀ c e, env.getCacheResult = .ok (some c) →
        env.downloadResult = .ok () → env.extractResult = .error e →
        restoreCache env = (.error e, RestoreTrace.mk true true true false)) ∧
    (∀ env : RestoreEnv, ∀ c, env.getCacheResult = .ok (some c) →
        env.downloadResult = .ok () → env.extractResult = .ok () →
        restoreCache env = (.ok true, RestoreTrace.mk true true true true)) ∧
    (∀ env : SaveEnv, ∀ n cacheId e, env.compressResult = .ok () →
        env.statResult = .ok n → env.reserveResult = .ok (some cacheId) →
        env.uploadResult = .error e →
        saveCache env =
          (.error e, SaveTrace.mk true true true true false false)) ∧
    (∀ env : SaveEnv, ∀ n cacheId e, env.compressResult = .ok () →
        env.statResult = .ok n → env.reserveResult = .ok (some cacheId) →
        env.uploadResult = .ok () → env.commitResult = .error e →
        saveCache env =
          (.error e, SaveTrace.mk true true true true true false)) ∧
    (∀ env : SaveEnv, ∀ n, env.compressResult = .ok () →
        env.statResult = .ok n → env.reserveResult = .ok none →
        saveCache env =
          (.ok false, SaveTrace.mk true true true false false true)) ∧
    (∀ env : SaveEnv, ∀ n cacheId, env.compressResult = .ok () →
        env.statResult = .ok n → env.reserveResult = .ok (some cacheId) →
        env.uploadResult = .ok () → env.commitResult = .ok () →
        saveCache env =
          (.ok true, SaveTrace.mk true true true true true true)) := by
  refine ⟨?_, ?_, ?_, ?_, ?_, ?_, ?_, ?_, ?_⟩
  · intro env h
    obtain ⟨g, d, x⟩ := env
    cases g with
    | error e => simp [restoreCache] at h
    | ok oc =>
      cases oc with
      | none => simp [restoreCache] at h
      | some c =>
        cases d with
        | error e => simp [restoreCache] at h
        | ok u =>
          cases x with
          | error e => simp [restoreCache] at h
          | ok v => simp [restoreCache]
  · intro env h
    obtain ⟨cp, st, rv, up, cm⟩ := env
    cases cp with
    | error e => simp [saveCache] at h
    | ok u1 =>
      cases st with
      | error e => simp [saveCache] at h
      | ok n =>
        cases rv with
        | error e => simp [saveCache] at h
        | ok oid =>
          cases oid with
          | none => left; simp [saveCache]
          | some cacheId =>
            cases up with
            | error e => simp [saveCache] at h
            | ok u2 =>
              cases cm with
              | error e => simp [saveCache] at h
              | ok u3 => right; simp [saveCache]
  · intro env c e hg hd
    simp [restoreCache, hg, hd]
  · intro env c e hg hd hx
    simp [restoreCache, hg, hd, hx]
  · intro env c hg hd hx
    simp [restoreCache, hg, hd, hx]
  · intro env n cacheId e hc hs hr hu
    simp [saveCache, hc, hs, hr, hu]
  · intro env n cacheId e hc hs hr hu hm
    simp [saveCache, hc, hs, hr, hu, hm]
  · intro env n hc hs hr
    simp [saveCache, hc, hs, hr]
  · intro env n cacheId hc hs hr hu hm
    simp [saveCache, hc, hs, hr, hu, hm]

/-- Witness for `scratch_dir_cleanup_paths`: a failing download leaves the
scratch dir; a successful restore removes it; a failing upload leaves it. -/
theorem scratch_dir_cleanup_paths_witness :
    restoreCache (RestoreEnv.mk (.ok (some (Cache.mk "s" "k" "v" "t" "url")))
        (.error "net down") (.ok ())) =
      (.error "net down", RestoreTrace.mk true true false false) ∧
    restoreCache (RestoreEnv.mk (.ok (some (Cache.mk "s" "k" "v" "t" "url")))
        (.ok ()) (.ok ())) =
      (.ok true, RestoreTrace.mk true true true true) ∧
    saveCache (SaveEnv.mk (.ok ()) (.ok 9) (.ok (some 3))
        (.error "upload failed") (.ok ())) =
      (.error "upload failed", SaveTrace.mk true true true true false false) :=
  ⟨scratch_dir_cleanup_paths.2.2.1
      (RestoreEnv.mk (.ok (some (Cache.mk "s" "k" "v" "t" "url")))
        (.error "net down") (.ok ()))
      (Cache.mk "s" "k" "v" "t" "url") "net down" rfl rfl,
    scratch_dir_cleanup_paths.2.2.2.2.1
      (RestoreEnv.mk (.ok (some (Cache.mk "s" "k" "v" "t" "url")))
        (.ok ()) (.ok ()))
      (Cache.mk "s" "k" "v" "t" "url") rfl rfl rfl,
    scratch_dir_cleanup_paths.2.2.2.2.2.1
      (SaveEnv.mk (.ok ()) (.ok 9) (.ok (some 3))
        (.error "upload failed") (.ok ()))
      9 3 "upload failed" rfl rfl rfl rfl⟩

/-- Joining two strings with a newline. -/
theorem intercalate_pair (a b : String) :
    String.intercalate "\n" [a, b] = a ++ "\n" ++ b := rfl

/-- C6 counterexample: a process (here `tar -cf - -P`) exiting non-zero with
empty captured stderr rejects with the command line followed by a trailing
newline — not with only the command line — and the stderr text is embedded
untrimmed rather than trimmed. -/
theorem process_error_counterexample :
    waitChildProcess ["tar", "-cf", "-", "-P"] (ProcExit.mk 1 "") =
        .error "Process failed: tar -cf - -P\n" ∧
      ("Process failed: tar -cf - -P\n" : String) ≠
        "Process failed: tar -cf - -P" ∧
      waitChildProcess ["tar", "-cf", "-", "-P"] (ProcExit.mk 1 " boom \n") =
        .error "Process failed: tar -cf - -P\n boom \n" ∧
      ("Process failed: tar -cf - -P\n boom \n" : String) ≠
        "Process failed: tar -cf - -P\nboom" := by
  exact ⟨rfl, by decide, rfl, by decide⟩

/-- C6 (amended): on non-zero exit, `waitChildProcess` rejects with a single
error whose message is the command line (command and arguments joined by
spaces) followed by a newline and the raw, untrimmed captured stderr; when
the captured stderr is empty, the message is the command line followed by a
trailing newline.  On exit code 0 it resolves. -/
theorem process_error_message (spawnargs : List String) (p : ProcExit) :
    (p.code = 0 → waitChildProcess spawnargs p = .ok ()) ∧
    (p.code ≠ 0 → waitChildProcess spawnargs p =
        .error ("Process failed: " ++ String.intercalate " " spawnargs
          ++ "\n" ++ p.stderr)) ∧
    (p.code ≠ 0 → p.stderr = "" → waitChildProcess spawnargs p =
        .error ("Process failed: " ++ String.intercalate " " spawnargs
          ++ "\n")) := by
  refine ⟨?_, ?_, ?_⟩
  · intro h
    simp [waitChildProcess, h]
  · intro h
    simp only [waitChildProcess, if_neg h, intercalate_pair]
  · intro h hs
    simp only [waitChildProcess, if_neg h, intercalate_pair, hs]
    simp

/-- Witness for `process_error_message`: a failing `zstd -T0` with and
without stderr output. -/
theorem process_error_message_witness :
    waitChildProcess ["zstd", "-T0"] (ProcExit.mk 2 "boom") =
        .error ("Process failed: " ++ String.intercalate " " ["zstd", "-T0"]
          ++ "\n" ++ "boom") ∧
      waitChildProcess ["zstd", "-T0"] (ProcExit.mk 2 "") =
        .error ("Process failed: " ++ String.intercalate " " ["zstd", "-T0"]
          ++ "\n") ∧
      waitChildProcess ["zstd", "-T0"] (ProcExit.mk 0 "") = .ok () :=
  ⟨(process_error_message ["zstd", "-T0"] (ProcExit.mk 2 "boom")).2.1
      (by decide),
    (process_error_message ["zstd", "-T0"] (ProcExit.mk 2 "")).2.2
      (by decide) rfl,
    (process_error_message ["zstd", "-T0"] (ProcExit.mk 0 "")).1 rfl⟩

/-- C8: `extractArchive` after `createArchive` reproduces byte-identical
content at each restored path, given the contracts of the external tools the
repository composes: `zstd` decompression inverts compression on the pack
stream, and `tar -xf` restores from the pack stream every path it packed
(`restoredPaths`: the members of `filePaths` together with the files below
directory members), whatever filesystem it extracts over. -/
theorem archive_round_trip (tar : Archiver) (zstd : Codec) (fs : FileSystem)
    (archivePath : String) (filePaths restoredPaths : List String)
    (hzstd : zstd.decomp (zstd.comp (tar.pack fs filePaths)) =
      tar.pack fs filePaths)
    (htar : ∀ (fs2 : FileSystem), ∀ p ∈ restoredPaths,
      tar.unpack fs2 (tar.pack fs filePaths) p = fs p) :
    ∀ p ∈ restoredPaths,
      extractArchive tar zstd
        (createArchive tar zstd fs archivePath filePaths) archivePath p =
        fs p := by
  intro p hp
  have harch : (createArchive tar zstd fs archivePath filePaths) archivePath =
      some (zstd.comp (tar.pack fs filePaths)) := by
    simp [createArchive, setFile]
  unfold extractArchive
  rw [harch]
  show tar.unpack (createArchive tar zstd fs archivePath filePaths)
    (zstd.decomp (zstd.comp (tar.pack fs filePaths))) p = fs p
  rw [hzstd]
  exact htar _ p hp

/-- Witness for `archive_round_trip`: compressing `["a", "b"]` on `toyFs`
then extracting restores both `a` and `b/c` byte-identically. -/
theorem archive_round_trip_witness :
    extractArchive toyTar toyCodec
        (createArchive toyTar toyCodec toyFs "tmp/cache.tar.zst" ["a", "b"])
        "tmp/cache.tar.zst" "a" = toyFs "a" ∧
      extractArchive toyTar toyCodec
        (createArchive toyTar toyCodec toyFs "tmp/cache.tar.zst" ["a", "b"])
        "tmp/cache.tar.zst" "b/c" = toyFs "b/c" := by
  have htar : ∀ (fs2 : FileSystem), ∀ p ∈ ["a", "b/c"],
      toyTar.unpack fs2 (toyTar.pack toyFs ["a", "b"]) p = toyFs p := by
    intro fs2 p hp
    rcases List.mem_cons.mp hp with rfl | hp2
    · rfl
    · rcases List.mem_cons.mp hp2 with rfl | hp3
      · rfl
      · exact absurd hp3 (List.not_mem_nil p)
  exact ⟨archive_round_trip toyTar toyCodec toyFs "tmp/cache.tar.zst"
      ["a", "b"] ["a", "b/c"] rfl htar "a" (by simp),
    archive_round_trip toyTar toyCodec toyFs "tmp/cache.tar.zst"
      ["a", "b"] ["a", "b/c"] rfl htar "b/c" (by simp)⟩
